import Mathlib

/-!
Verification of the extraction pipeline of the `lgtm` repository: a shallow
embedding of `src/github_client.py` (auth token cache, rate-limit handling,
retry loop, pagination) and `src/main.py` (orchestrator state, merge,
incremental parquet upsert, checkpointing), with theorems settling the
specification claims about them.
-/

deriving instance DecidableEq for Except

namespace LGTM

/-- Embeds `PER_PAGE = 100` from `src/config.py`. -/
def PER_PAGE : Nat := 100

/-- Embeds `CHECKPOINT_FILE` from `src/config.py`. -/
def CHECKPOINT_FILE : String := "data/checkpoints/extraction_state.json"

/-- The temporary path `f"{CHECKPOINT_FILE}.tmp"` used by
`DataExtractor.save_checkpoint`. -/
def CHECKPOINT_TMP : String := CHECKPOINT_FILE ++ ".tmp"

/-- Embeds `RATE_LIMIT_PRODUCER_PAUSE = 100` from `src/main.py`. -/
def RATE_LIMIT_PRODUCER_PAUSE : Nat := 100

/-- A row of one of the parquet tables.  Every record model in
`src/models.py` carries an integer `pr_number`; `rid` stands for the row's
own unique-id column (`user_id` for the users table, `review_id` for
reviews, ...), and `payload` abstracts the remaining data columns, which
none of the claims inspect. -/
structure Row where
  pr_number : Nat
  rid : Nat
  payload : Nat
deriving DecidableEq, Repr

/-- Embeds the `ErrorRecord` dataclass of `src/main.py`. -/
structure ErrorRecord where
  pr_number : Nat
  error_type : String
  error_message : String
  timestamp : String
  retries : Nat
deriving DecidableEq, Repr

/-- The seven pr_number-keyed parquet tables written by
`DataExtractor.save_parquet_incremental` (`prs.parquet`, `reviews.parquet`,
`pr_comments.parquet`, `review_comments.parquet`, `files.parquet`,
`checks.parquet`, `timeline_events.parquet`).  The users table is keyed by
`user_id` and modelled separately. -/
inductive RecordType where
  | prs
  | reviews
  | prComments
  | reviewComments
  | files
  | checks
  | timelineEvents
deriving DecidableEq, Repr

/-- Embeds the JSON object written by `DataExtractor.save_checkpoint`:
`processed_prs` (a list serialising the processed set), `failed_prs`
(the values of the failed-PR dict) and a timestamp.  The derived `stats`
block is not read back by `load_checkpoint` and is omitted. -/
structure SavedCheckpoint where
  processed_prs : List Nat
  failed_prs : List ErrorRecord
  timestamp : String
deriving DecidableEq, Repr

/-- Embeds the mutable state of `DataExtractor` (`src/main.py`) together
with the on-disk artefacts it reads and writes.  `buffers t` is the
in-memory accumulation list for table `t` (`self.prs`, `self.reviews`, ...),
`users` is the `self.users` dict as an association list, `pending` is
`self.pending_prs`, `processed` is `self.processed_prs`, `failed` is the
`self.failed_prs` dict as an association list, `stats_failed` is
`self.stats.failed_prs`, `disk t` is the content of table `t`'s parquet
file (`none` when the file does not exist), `usersDisk` the users parquet
file, and `checkpointDisk` the checkpoint file. -/
structure ExtState where
  buffers : RecordType → List Row
  users : List (Nat × Row)
  pending : List Nat
  processed : Finset Nat
  failed : List (Nat × ErrorRecord)
  stats_failed : Nat
  stop_requested : Bool
  disk : RecordType → Option (List Row)
  usersDisk : Option (List Row)
  checkpointDisk : Option SavedCheckpoint

/-- Embeds the inner function `upsert_table` of
`DataExtractor.save_parquet_incremental`.  If the batch `items` is empty
the file is left untouched (`if not items: return`).  Otherwise, when the
file exists, the rows kept from it are those whose `pr_number` is not in
`updated_pr_numbers` (when the key column is `pr_number`) or whose own key
is not among the new rows' keys (unique-key mode, used for the users
table), and the new rows are appended after them; when the file does not
exist the new rows alone are written.  The schema-promotion fallback of the
source only adjusts column types, never row content, so it does not appear
at this level of abstraction. -/
def upsert_table (updated_pr_numbers : List Nat) (keyIsPrNumber : Bool)
    (items : List Row) (existing : Option (List Row)) : Option (List Row) :=
  if items.isEmpty then existing
  else
    match existing with
    | none => some items
    | some ex =>
      let keep :=
        if keyIsPrNumber then
          ex.filter (fun r => decide (r.pr_number ∉ updated_pr_numbers))
        else
          ex.filter (fun r => decide (r.rid ∉ items.map Row.rid))
      some (keep ++ items)

/-- Embeds `DataExtractor.save_parquet_incremental`: computes
`updated_pr_numbers` from the `self.prs` buffer, upserts every
pr_number-keyed table and the user table, then (and only then) moves the
pending PR numbers into the processed set and clears the buffers.  The
source guards the users upsert with `if self.users:`, which is equivalent
to the empty-batch early return inside `upsert_table`. -/
def save_parquet_incremental (s : ExtState) : ExtState :=
  let updated := (s.buffers RecordType.prs).map Row.pr_number
  { s with
    disk := fun t => upsert_table updated true (s.buffers t) (s.disk t)
    usersDisk := upsert_table updated false (s.users.map Prod.snd) s.usersDisk
    processed := s.processed ∪ s.pending.toFinset
    pending := []
    buffers := fun _ => [] }

/-- Embeds the checkpoint object built by `DataExtractor.save_checkpoint`
from the in-memory state.  The Python `list(self.processed_prs)` serialises
the set in unspecified order; the model picks the canonical ascending
order.  `failed_prs` lists the dict's values in insertion order. -/
def save_checkpoint_data (processed : Finset Nat)
    (failed : List (Nat × ErrorRecord)) (ts : String) : SavedCheckpoint :=
  { processed_prs := processed.sort (· ≤ ·)
    failed_prs := failed.map Prod.snd
    timestamp := ts }

/-- Embeds `DataExtractor.save_checkpoint` as a state transformation: the
checkpoint file ends up holding the serialised processed set and failed
map. -/
def save_checkpoint (ts : String) (s : ExtState) : ExtState :=
  { s with checkpointDisk := some (save_checkpoint_data s.processed s.failed ts) }

/-- Embeds `DataExtractor.load_checkpoint` (without a refresh window):
`processed_prs = set(checkpoint["processed_prs"])` and the failed-PR dict
is rebuilt keying each record by its `pr_number` field. -/
def load_checkpoint (cp : SavedCheckpoint) : Finset Nat × List (Nat × ErrorRecord) :=
  (cp.processed_prs.toFinset, cp.failed_prs.map (fun e => (e.pr_number, e)))

/-- The flush sequence executed by both `DataExtractor._checkpoint_task`
and the final shutdown in `DataExtractor.run`: `save_parquet_incremental()`
followed by `save_checkpoint()`. -/
def checkpointFlush (ts : String) (s : ExtState) : ExtState :=
  save_checkpoint ts (save_parquet_incremental s)

/-- The rows currently stored in table `t`'s parquet file (empty when the
file does not exist). -/
def diskRows (s : ExtState) (t : RecordType) : List Row :=
  (s.disk t).getD []

/-- The PR numbers present in the stored `prs.parquet` table. -/
def diskPrNumbers (s : ExtState) : List Nat :=
  (diskRows s RecordType.prs).map Row.pr_number

/-- The rows of list `l` belonging to PR `p`. -/
def rowsFor (p : Nat) (l : List Row) : List Row :=
  l.filter (fun r => decide (r.pr_number = p))

/-- An HTTP response as seen by `GitHubClient._handle_rate_limit` and
`GitHubClient._request`: the status code and the three headers the client
reads, each `none` when absent.  Times are whole seconds. -/
structure Resp where
  status : Nat
  remaining : Option Int
  reset : Option Int
  retry_after : Option Int
deriving DecidableEq, Repr

/-- Embeds `GitHubClient._handle_rate_limit`.  Returns whether the request
is retried together with the seconds slept before the retry (0 when not
retried).  A 403 whose `X-RateLimit-Remaining` header (default 1 when
absent) is 0 sleeps `max(reset - now, 60) + 1` seconds; a 429 sleeps
`Retry-After` seconds (default 60); everything else, including a 403 with
nonzero remaining, is not treated as rate limiting. -/
def handle_rate_limit (now : Int) (r : Resp) : Bool × Int :=
  if r.status = 403 ∧ r.remaining.getD 1 = 0 then
    (true, max (r.reset.getD 0 - now) 60 + 1)
  else if r.status = 429 then
    (true, r.retry_after.getD 60)
  else
    (false, 0)

/-- Errors `GitHubClient._request` can raise: the final
`Exception("Max retries exceeded ...")` after the attempt loop, or the
`httpx.HTTPStatusError` raised by `response.raise_for_status()` on a 4xx
status. -/
inductive ReqError where
  | maxRetries
  | httpStatus (code : Nat)
deriving DecidableEq, Repr

/-- Embeds the attempt loop of `GitHubClient._request`
(`for attempt in range(max_retries)`), with `script n` the response the
server returns to the request made on attempt `n`.  A rate-limited
response or a 5xx response consumes an attempt via `continue`; a 4xx
response raises; otherwise the response is returned.  The second `Nat` is
the remaining fuel, `max_retries - attempt`. -/
def request_go (now : Int) (script : Nat → Resp) : Nat → Nat → Except ReqError Resp
  | _, 0 => Except.error ReqError.maxRetries
  | attempt, fuel + 1 =>
    let r := script attempt
    if (handle_rate_limit now r).1 then request_go now script (attempt + 1) fuel
    else if 500 ≤ r.status then request_go now script (attempt + 1) fuel
    else if 400 ≤ r.status then Except.error (ReqError.httpStatus r.status)
    else Except.ok r

/-- Embeds `GitHubClient._request` with its default `max_retries = 3`
budget: run the attempt loop from attempt 0. -/
def github_request (now : Int) (script : Nat → Resp) (max_retries : Nat) :
    Except ReqError Resp :=
  request_go now script 0 max_retries

/-- Embeds the paging loop of `GitHubClient.paginate`, with `script page`
the JSON array the server returns for page `page` (pages are numbered from
1).  Returns the items yielded (in order) and the number of page requests
issued.  The loop stops after an empty page, after a short page, or after
reaching `max_pages` (the production callers pass `max_pages = None`); the
fuel argument makes the unbounded `while True` structurally recursive and
is irrelevant once it covers the page count (theorem
`paginate_yields_all`). -/
def paginate_go {α : Type} (script : Nat → List α) (max_pages : Option Nat) :
    Nat → Nat → List α × Nat
  | _, 0 => ([], 0)
  | page, fuel + 1 =>
    let items := script page
    if items.isEmpty then ([], 1)
    else if items.length < PER_PAGE then (items, 1)
    else if (match max_pages with | some m => decide (0 < m) && decide (m ≤ page) | none => false) then
      (items, 1)
    else
      let rest := paginate_go script max_pages (page + 1) fuel
      (items ++ rest.1, rest.2 + 1)

/-- The paging behaviour of a server holding the list `items`: page `p`
(numbered from 1) serves the `p`-th chunk of `PER_PAGE` items. -/
def pagesOf {α : Type} (items : List α) (page : Nat) : List α :=
  (items.drop ((page - 1) * PER_PAGE)).take PER_PAGE

/-- `GitHubClient.paginate` run against a server holding `items`, from
page 1 with no `max_pages` cap. -/
def paginate_run {α : Type} (items : List α) (fuel : Nat) : List α × Nat :=
  paginate_go (pagesOf items) none 1 fuel

/-- Embeds the token cache of `GitHubAppAuth` (`src/github_client.py`):
the cached installation token (`_token`), its expiry (`_token_expires_at`,
seconds) and a count of exchange calls performed
(`_fetch_installation_token` invocations), used to state that a path
performs no network call. -/
structure AuthState where
  token : Option Nat
  expires_at : Option Int
  exchanges : Nat
deriving DecidableEq, Repr

/-- The validity condition checked (twice) by `GitHubAppAuth.get_token`:
the cached token exists and expires more than 5 minutes (300 s) after
`now`. -/
def tokenValid (now : Int) (s : AuthState) : Bool :=
  match s.token, s.expires_at with
  | some _, some e => decide (now + 300 < e)
  | _, _ => false

/-- The three ways one call to `GitHubAppAuth.get_token` can complete:
on the lock-free fast path, on the re-check after acquiring the refresh
lock (both return the cached token with no exchange call), or by
performing the exchange. -/
inductive TokenOutcome where
  | cachedFast (t : Nat)
  | cachedLocked (t : Nat)
  | refreshed (t : Nat) (e : Int)
deriving DecidableEq, Repr

/-- Embeds one call to `GitHubAppAuth.get_token`.  Because other callers
may refresh the cache between the lock-free check and the re-check under
the lock, the call is parameterised by the two observations it makes:
`fastS` is the cache state read without the lock at time `now1`, `lockedS`
the state re-read under the lock at time `now2`, and `fresh` the
token/expiry pair the exchange would return if performed. -/
def get_token (now1 now2 : Int) (fastS lockedS : AuthState) (fresh : Nat × Int) :
    TokenOutcome :=
  if tokenValid now1 fastS then TokenOutcome.cachedFast (fastS.token.getD 0)
  else if tokenValid now2 lockedS then TokenOutcome.cachedLocked (lockedS.token.getD 0)
  else TokenOutcome.refreshed fresh.1 fresh.2

/-- The cache state left behind by a completed `get_token` call that
started from cache state `s`: only the refresh path mutates the cache,
storing the exchanged token and counting the exchange. -/
def stateAfter (s : AuthState) : TokenOutcome → AuthState
  | TokenOutcome.refreshed t e =>
    { token := some t, expires_at := some e, exchanges := s.exchanges + 1 }
  | _ => s

/-- Two concurrent callers, both of which fail the lock-free check against
the same stale cache `s0` and queue on the refresh lock: caller A enters
the lock first and runs its re-check against `s0` unchanged; caller B
enters after A completes and re-checks against the state A left behind. -/
def two_callers_after_expiry (now : Int) (s0 : AuthState) (fresh : Nat × Int) :
    TokenOutcome × TokenOutcome :=
  let a := get_token now now s0 s0 fresh
  let b := get_token now now s0 (stateAfter s0 a) fresh
  (a, b)

/-- The attribute names available on a `GitHubClient` instance, from the
source of `src/github_client.py`: the instance attributes assigned in
`__init__`, the class attribute, the properties, and the methods. -/
def github_client_members : List String :=
  ["app_auth", "pat_token", "_auth_type", "client", "_request_count",
   "BASE_URL", "auth_type", "request_count",
   "_get_auth_header", "_handle_rate_limit", "_request", "get",
   "paginate", "paginate_all", "get_pull_requests", "get_pr_reviews",
   "get_pr_comments", "get_pr_review_comments", "get_pr_files",
   "get_pr_commits", "get_check_runs", "get_pr_timeline", "get_rate_limit"]

/-- Embeds the loop-condition read
`self.client.rate_limit_remaining < RATE_LIMIT_PRODUCER_PAUSE` of
`DataExtractor._wait_for_rate_limit`: the producer looks the attribute up
on the client and compares it with the low-water mark; when the client has
no such attribute, Python raises `AttributeError` instead. -/
def producer_rate_check (members : List String) (value : String → Int) :
    Except String Bool :=
  if members.contains "rate_limit_remaining" then
    Except.ok (decide (value "rate_limit_remaining" < (RATE_LIMIT_PRODUCER_PAUSE : Int)))
  else
    Except.error "AttributeError: rate_limit_remaining"

/-- The per-PR fetch outcomes a worker observes inside
`DataExtractor.extract_pr_details`: one result per concurrent sub-fetch,
each either the rows fetched or the message of the exception its
`try/except` caught, plus the de-duplicated users tracked from the
successful responses.  The nursery runs the six fetches concurrently; the
model fixes their bookkeeping in task start order (theorems about the
error list use only membership, which is order-independent). -/
structure FetchResults where
  reviews : Except String (List Row)
  pr_comments : Except String (List Row)
  review_comments : Except String (List Row)
  files : Except String (List Row)
  checks : Except String (List Row)
  timeline_events : Except String (List Row)
  users : List (Nat × Row)

/-- The rows of a sub-fetch outcome: a failed fetch contributes none
(its `except` clause only records the error). -/
def fetchRows : Except String (List Row) → List Row
  | Except.ok l => l
  | Except.error _ => []

/-- The error-list contribution of one sub-fetch, with the per-kind
prefixes used in `extract_pr_details` (`f"reviews: {e}"`, ...). -/
def fetchErr (kind : String) : Except String (List Row) → List String
  | Except.ok _ => []
  | Except.error m => [kind ++ ": " ++ m]

/-- Embeds the `PRDetails` dataclass of `src/main.py`. -/
structure PRDetails where
  pr : Row
  reviews : List Row
  pr_comments : List Row
  review_comments : List Row
  files : List Row
  checks : List Row
  timeline_events : List Row
  users : List (Nat × Row)
  errors : List String

/-- Embeds `DataExtractor.extract_pr_details`: assembles a `PRDetails`
from the PR's own record and the six sub-fetch outcomes; each failing
sub-fetch is captured per-kind in the error list instead of aborting the
PR.  (The source's fix-up of `changed_files`/`additions`/`deletions` only
rewrites payload columns of the PR row and is absorbed by the payload
abstraction.) -/
def extract_pr_details (prRow : Row) (f : FetchResults) : PRDetails :=
  { pr := prRow
    reviews := fetchRows f.reviews
    pr_comments := fetchRows f.pr_comments
    review_comments := fetchRows f.review_comments
    files := fetchRows f.files
    checks := fetchRows f.checks
    timeline_events := fetchRows f.timeline_events
    users := f.users
    errors :=
      fetchErr "reviews" f.reviews ++ fetchErr "pr_comments" f.pr_comments ++
      fetchErr "review_comments" f.review_comments ++ fetchErr "files" f.files ++
      fetchErr "checks" f.checks ++ fetchErr "timeline" f.timeline_events }

/-- The buffer each component of a `PRDetails` is appended to by
`DataExtractor.merge_details`. -/
def detailRows (d : PRDetails) : RecordType → List Row
  | RecordType.prs => [d.pr]
  | RecordType.reviews => d.reviews
  | RecordType.prComments => d.pr_comments
  | RecordType.reviewComments => d.review_comments
  | RecordType.files => d.files
  | RecordType.checks => d.checks
  | RecordType.timelineEvents => d.timeline_events

/-- The user-merge loop of `DataExtractor.merge_details`: each new user is
added only if its id is not already tracked. -/
def mergeUsers (users newUsers : List (Nat × Row)) : List (Nat × Row) :=
  newUsers.foldl
    (fun acc p => if acc.any (fun q => q.1 == p.1) then acc else acc ++ [p]) users

/-- Embeds `DataExtractor.merge_details`: appends the detail's rows to the
in-memory buffers, merges its users, and appends the PR number to the
pending list (extracted but not yet saved).  The pure-display stats
updates are not modelled. -/
def merge_details (s : ExtState) (d : PRDetails) (prn : Nat) : ExtState :=
  { s with
    buffers := fun t => s.buffers t ++ detailRows d t
    users := mergeUsers s.users d.users
    pending := s.pending ++ [prn] }

/-- Dict read `self.failed_prs.get(pr_number, ErrorRecord(0, "", "", "")).retries`. -/
def failedRetries (m : List (Nat × ErrorRecord)) (k : Nat) : Nat :=
  match m.find? (fun p => p.1 == k) with
  | some p => p.2.retries
  | none => 0

/-- Dict write `self.failed_prs[pr_number] = error_record`: replaces the
entry in place when the key exists, otherwise appends it. -/
def failedInsert (m : List (Nat × ErrorRecord)) (k : Nat) (v : ErrorRecord) :
    List (Nat × ErrorRecord) :=
  if m.any (fun p => p.1 == k) then
    m.map (fun p => if p.1 = k then (k, v) else p)
  else
    m ++ [(k, v)]

/-- Embeds `DataExtractor._process_single_pr`.  `outcome` is `ok f` when
`extract_pr_details` returns (possibly with per-kind sub-fetch errors
recorded inside `f`), and `error (type, message)` when the PR's processing
as a whole raises; only the latter touches the failed-PR map and failure
counter. -/
def process_single_pr (nowTs : String) (s : ExtState) (prn : Nat) (prRow : Row)
    (outcome : Except (String × String) FetchResults) : ExtState :=
  if s.stop_requested then s
  else
    match outcome with
    | Except.ok f => merge_details s (extract_pr_details prRow f) prn
    | Except.error e =>
      let rec_ : ErrorRecord :=
        { pr_number := prn
          error_type := e.1
          error_message := e.2.take 500
          timestamp := nowTs
          retries := failedRetries s.failed prn + 1 }
      { s with
        stats_failed := s.stats_failed + 1
        failed := failedInsert s.failed prn rec_ }

/-- File-system operations performed by `DataExtractor.save_checkpoint`
(the `os.makedirs` call touches only the directory and is omitted). -/
inductive FsOp where
  | writeFile (path : String) (content : SavedCheckpoint)
  | rename (src dst : String)
deriving DecidableEq, Repr

/-- The operation trace of `DataExtractor.save_checkpoint`: write the
serialised checkpoint to the temporary path, then `os.replace` it over the
canonical path. -/
def save_checkpoint_ops (cp : SavedCheckpoint) : List FsOp :=
  [FsOp.writeFile CHECKPOINT_TMP cp, FsOp.rename CHECKPOINT_TMP CHECKPOINT_FILE]

/-- What a reader can observe at a path: no file, a torn (incompletely
written) file, or a whole file with the given content. -/
inductive FileState where
  | absent
  | torn
  | whole (c : SavedCheckpoint)

/-- A file system assigns a `FileState` to every path. -/
def FS : Type := String → FileState

/-- Effect of one completed operation: a write replaces the path's content
whole; `os.replace` atomically moves the source's content over the
destination. -/
def applyOp (fs : FS) : FsOp → FS
  | FsOp.writeFile p c => fun q => if q = p then FileState.whole c else fs q
  | FsOp.rename src dst =>
    fun q => if q = dst then fs src else if q = src then FileState.absent else fs q

/-- Effect of an operation interrupted mid-way by a crash: an interrupted
write leaves the target torn; `os.replace` is atomic on POSIX, so an
interrupted rename leaves the file system unchanged (the completed rename
is covered by the crash point after it). -/
def applyCrash (fs : FS) : FsOp → FS
  | FsOp.writeFile p _ => fun q => if q = p then FileState.torn else fs q
  | FsOp.rename _ _ => fs

/-- Run a list of operations to completion. -/
def applyOps (fs : FS) : List FsOp → FS
  | [] => fs
  | op :: rest => applyOps (applyOp fs op) rest

/-- The file system observed when the process is killed after the first
`k` operations completed, the next one (when `mid` is set and one remains)
being interrupted mid-way. -/
def runCrash (fs : FS) (ops : List FsOp) (k : Nat) (mid : Bool) : FS :=
  let pre := applyOps fs (ops.take k)
  if mid then
    match ops[k]? with
    | some op => applyCrash pre op
    | none => pre
  else pre

/-- A concrete orchestrator state used by the witnesses: PR 7 was just
extracted (its PR row and two review rows sit in the buffers, 7 is
pending), PR 3 was processed by an earlier flush (it is in the processed
set and on disk), and the reviews table on disk still holds three stale
rows for PR 7 from a previous extraction. -/
def stateA : ExtState :=
  { buffers := fun t =>
      match t with
      | RecordType.prs => [⟨7, 0, 0⟩]
      | RecordType.reviews => [⟨7, 1, 0⟩, ⟨7, 2, 0⟩]
      | _ => []
    users := [(42, ⟨0, 42, 0⟩)]
    pending := [7]
    processed := {3}
    failed := []
    stats_failed := 0
    stop_requested := false
    disk := fun t =>
      match t with
      | RecordType.prs => some [⟨3, 0, 0⟩]
      | RecordType.reviews => some [⟨7, 90, 0⟩, ⟨7, 91, 0⟩, ⟨7, 92, 0⟩]
      | _ => none
    usersDisk := none
    checkpointDisk := none }

/-- Concrete sub-fetch outcomes used by the witnesses: the file fetch
raised while the other sub-fetches succeeded. -/
def fetchA : FetchResults :=
  { reviews := Except.ok [⟨7, 1, 0⟩]
    pr_comments := Except.ok []
    review_comments := Except.ok []
    files := Except.error "boom"
    checks := Except.ok []
    timeline_events := Except.ok []
    users := [] }

/-- Rows of the upserted batch always appear in the written table. -/
lemma mem_upsert_of_mem_items (u : List Nat) (b : Bool) (items : List Row)
    (ex : Option (List Row)) {r : Row} (hr : r ∈ items) :
    r ∈ (upsert_table u b items ex).getD [] := by
  have hne : items.isEmpty = false := by
    cases items with
    | nil => cases hr
    | cons a l => rfl
  cases ex with
  | none => simpa [upsert_table, hne] using hr
  | some l => simp [upsert_table, hne, List.mem_append, hr]

/-- Rows kept from the existing table never belong to an updated PR. -/
lemma rowsFor_filter_updated (p : Nat) (u : List Nat) (hp : p ∈ u)
    (ex : List Row) :
    rowsFor p (ex.filter (fun r => decide (r.pr_number ∉ u))) = [] := by
  rw [rowsFor, List.filter_filter]
  refine List.filter_eq_nil_iff.mpr ?_
  intro r _
  by_cases hru : r.pr_number ∈ u
  · simp [hru]
  · have : r.pr_number ≠ p := fun h => hru (h ▸ hp)
    simp [hru, this]

/-- C10: Implicit frame property of the flush: if at flush time the
in-memory buffer for a record type is empty, `save_parquet_incremental`
leaves that record type's parquet file completely unchanged — in
particular, any stale rows of that type belonging to PRs re-extracted in
the same flush survive on disk. -/
theorem c10_empty_buffer_frame (s : ExtState) (t : RecordType)
    (h : s.buffers t = []) :
    (save_parquet_incremental s).disk t = s.disk t
    ∧ ∀ r ∈ diskRows s t, r ∈ diskRows (save_parquet_incremental s) t := by
  have h1 : (save_parquet_incremental s).disk t = s.disk t := by
    simp [save_parquet_incremental, upsert_table, h]
  refine ⟨h1, ?_⟩
  intro r hr
  simpa [diskRows, h1] using hr

/-- C10 witness: in `stateA` the files buffer is empty and the files
table on disk (absent) is untouched by the flush. -/
theorem c10_witness :
    (save_parquet_incremental stateA).disk RecordType.files = stateA.disk RecordType.files
    ∧ ∀ r ∈ diskRows stateA RecordType.files,
        r ∈ diskRows (save_parquet_incremental stateA) RecordType.files :=
  c10_empty_buffer_frame stateA RecordType.files (by decide)

/-- C2: Upsert full replace-by-unit: for every pr_number-keyed record
type whose flush batch is non-empty, and every PR `p` re-extracted in this
flush (present in the flush's PR batch), the rows stored for `p` after the
flush are exactly the batch's new rows for `p`: old rows for `p` are all
removed, none are merged or duplicated.  In particular a PR stored with 3
review rows and re-extracted with 2 ends with exactly 2. -/
theorem c2_upsert_replaces (s : ExtState) (t : RecordType) (p : Nat)
    (hp : p ∈ (s.buffers RecordType.prs).map Row.pr_number)
    (hne : s.buffers t ≠ []) :
    rowsFor p (diskRows (save_parquet_incremental s) t) = rowsFor p (s.buffers t) := by
  have hIsEmpty : (s.buffers t).isEmpty = false := by
    cases hbt : s.buffers t with
    | nil => exact absurd hbt hne
    | cons a l => rfl
  have hgoal : diskRows (save_parquet_incremental s) t
      = (upsert_table ((s.buffers RecordType.prs).map Row.pr_number) true
          (s.buffers t) (s.disk t)).getD [] := rfl
  rw [hgoal]
  cases hd : s.disk t with
  | none => simp [upsert_table, hIsEmpty]
  | some ex =>
    simp only [upsert_table, hIsEmpty, Bool.false_eq_true, if_false, if_true,
      Option.getD_some]
    rw [rowsFor, List.filter_append, ← rowsFor, ← rowsFor,
      rowsFor_filter_updated p _ hp ex, List.nil_append]

/-- C2 witness: in `stateA`, PR 7 is re-extracted with 2 review rows while
3 stale review rows sit on disk; after the flush exactly the 2 new rows
remain for PR 7. -/
theorem c2_witness :
    rowsFor 7 (diskRows (save_parquet_incremental stateA) RecordType.reviews)
      = rowsFor 7 (stateA.buffers RecordType.reviews) :=
  c2_upsert_replaces stateA RecordType.reviews 7 (by decide) (by decide)

/-- C1: Persist-before-checkpoint invariant: the flush sequence run by
both the periodic checkpoint task and the final shutdown
(`save_parquet_incremental` strictly before the pending PR numbers are
moved into the processed set, which itself happens strictly before
`save_checkpoint`) preserves durability: provided every pending PR has its
PR row buffered (as `merge_details` guarantees) and every previously
processed PR is already on disk, then after the flush every PR number in
the saved checkpoint's processed set has its PR row in the stored
`prs.parquet`, and every buffered record of the flush is in its stored
table. -/
theorem c1_persist_before_checkpoint (s : ExtState) (ts : String)
    (hpend : ∀ p ∈ s.pending, p ∈ (s.buffers RecordType.prs).map Row.pr_number)
    (hproc : ∀ p ∈ s.processed, p ∈ diskPrNumbers s) :
    (∀ cp, (checkpointFlush ts s).checkpointDisk = some cp →
       ∀ p ∈ cp.processed_prs, p ∈ diskPrNumbers (checkpointFlush ts s))
    ∧ (∀ t, ∀ r ∈ s.buffers t, r ∈ diskRows (checkpointFlush ts s) t) := by
  have hdisk : ∀ t, diskRows (checkpointFlush ts s) t
      = (upsert_table ((s.buffers RecordType.prs).map Row.pr_number) true
          (s.buffers t) (s.disk t)).getD [] := fun t => rfl
  constructor
  · intro cp hcp p hp
    have hcp2 : cp = save_checkpoint_data
        (s.processed ∪ s.pending.toFinset) (save_parquet_incremental s).failed ts := by
      have : (checkpointFlush ts s).checkpointDisk
          = some (save_checkpoint_data (s.processed ∪ s.pending.toFinset)
              (save_parquet_incremental s).failed ts) := rfl
      rw [this] at hcp
      exact (Option.some_injective _ hcp).symm
    subst hcp2
    have hpmem : p ∈ s.processed ∪ s.pending.toFinset := by
      simpa [save_checkpoint_data, Finset.mem_sort] using hp
    have hupd : p ∈ ((s.buffers RecordType.prs).map Row.pr_number) →
        p ∈ diskPrNumbers (checkpointFlush ts s) := by
      intro hu
      rcases List.mem_map.mp hu with ⟨r, hr, hrp⟩
      have : r ∈ diskRows (checkpointFlush ts s) RecordType.prs := by
        rw [hdisk]
        exact mem_upsert_of_mem_items _ _ _ _ hr
      exact List.mem_map.mpr ⟨r, this, hrp⟩
    rcases Finset.mem_union.mp hpmem with hold | hnew
    · -- p was processed before this flush: its row was already on disk
      rcases List.mem_map.mp (hproc p hold) with ⟨r0, hr0, hr0p⟩
      by_cases hu : p ∈ ((s.buffers RecordType.prs).map Row.pr_number)
      · exact hupd hu
      · -- the old row survives the upsert filter
        have hd : ∃ ex, s.disk RecordType.prs = some ex ∧ r0 ∈ ex := by
          cases hdp : s.disk RecordType.prs with
          | none => rw [diskRows, hdp] at hr0; cases hr0
          | some ex => exact ⟨ex, rfl, by rwa [diskRows, hdp] at hr0⟩
        rcases hd with ⟨ex, hex, hr0ex⟩
        have hkeep : r0 ∈ diskRows (checkpointFlush ts s) RecordType.prs := by
          rw [hdisk, hex]
          by_cases hb : (s.buffers RecordType.prs).isEmpty
          · simpa [upsert_table, hb] using hr0ex
          · have hb' : (s.buffers RecordType.prs).isEmpty = false := by
              simpa using hb
            have hr0u : r0.pr_number ∉ (s.buffers RecordType.prs).map Row.pr_number := by
              rw [hr0p]; exact hu
            simp [upsert_table, hb', List.mem_append, List.mem_filter, hr0ex, hr0u]
            exact Or.inl (fun x hx hxe => hr0u (List.mem_map.mpr ⟨x, hx, hxe⟩))
        exact List.mem_map.mpr ⟨r0, hkeep, hr0p⟩
    · exact hupd (hpend p (List.mem_toFinset.mp hnew))
  · intro t r hr
    rw [hdisk]
    exact mem_upsert_of_mem_items _ _ _ _ hr

/-- C1 witness: flushing `stateA` puts both the previously processed PR 3
and the pending PR 7 on disk, and every buffered row on disk, before the
checkpoint records them as processed. -/
theorem c1_witness :
    (∀ cp, (checkpointFlush "ts" stateA).checkpointDisk = some cp →
       ∀ p ∈ cp.processed_prs, p ∈ diskPrNumbers (checkpointFlush "ts" stateA))
    ∧ (∀ t, ∀ r ∈ stateA.buffers t, r ∈ diskRows (checkpointFlush "ts" stateA) t) :=
  c1_persist_before_checkpoint stateA "ts" (by decide) (by decide)

/-- C8: Checkpoint round-trip and atomic save: `save_checkpoint` followed
by `load_checkpoint` reproduces an identical processed set and an
identical failed-PR map (all `ErrorRecord` fields preserved; the map's
keys equal each record's `pr_number`, which the writers always maintain);
and the save's operation trace writes the serialised checkpoint to the
temporary path and atomically renames it over the canonical path, so
however the process is killed during a save, a reader of the canonical
path observes either the whole old checkpoint or the whole new one, never
a torn file. -/
theorem c8_checkpoint_roundtrip (processed : Finset Nat)
    (failed : List (Nat × ErrorRecord)) (ts : String)
    (hkeys : ∀ q ∈ failed, (q.2).pr_number = q.1) :
    load_checkpoint (save_checkpoint_data processed failed ts) = (processed, failed)
    ∧ (∀ (old : SavedCheckpoint) (k : Nat) (mid : Bool),
        runCrash (fun q => if q = CHECKPOINT_FILE then FileState.whole old else FileState.absent)
            (save_checkpoint_ops (save_checkpoint_data processed failed ts)) k mid
            CHECKPOINT_FILE = FileState.whole old
        ∨ runCrash (fun q => if q = CHECKPOINT_FILE then FileState.whole old else FileState.absent)
            (save_checkpoint_ops (save_checkpoint_data processed failed ts)) k mid
            CHECKPOINT_FILE
            = FileState.whole (save_checkpoint_data processed failed ts)) := by
  constructor
  · rw [load_checkpoint, save_checkpoint_data, Prod.mk.injEq]
    constructor
    · exact Finset.sort_toFinset _ _
    · rw [List.map_map]
      have hid : ∀ q ∈ failed, ((fun e => (e.pr_number, e)) ∘ Prod.snd) q = id q := by
        intro q hq
        simp [hkeys q hq]
      rw [List.map_congr_left hid, List.map_id]
  · intro old k mid
    have hne : CHECKPOINT_FILE ≠ CHECKPOINT_TMP := by decide
    match k with
    | 0 =>
      cases mid with
      | false => left; simp [runCrash, applyOps, save_checkpoint_ops]
      | true =>
        left
        simp [runCrash, applyOps, save_checkpoint_ops, applyCrash, hne]
    | 1 =>
      cases mid with
      | false =>
        left
        simp [runCrash, applyOps, save_checkpoint_ops, applyOp, hne]
      | true =>
        left
        simp [runCrash, applyOps, save_checkpoint_ops, applyOp, applyCrash, hne]
    | (n + 2) =>
      right
      cases mid with
      | false =>
        simp [runCrash, applyOps, save_checkpoint_ops, applyOp, hne]
      | true =>
        simp [runCrash, applyOps, save_checkpoint_ops, applyOp, applyCrash, hne]

/-- C8 witness: a concrete processed set and failed map survive the
round-trip unchanged, and every crash point of the save leaves the
canonical path whole. -/
theorem c8_witness :
    load_checkpoint (save_checkpoint_data {1, 2}
        [(5, ⟨5, "RuntimeError", "boom", "t0", 2⟩)] "t1")
      = ({1, 2}, [(5, ⟨5, "RuntimeError", "boom", "t0", 2⟩)])
    ∧ (∀ (old : SavedCheckpoint) (k : Nat) (mid : Bool),
        runCrash (fun q => if q = CHECKPOINT_FILE then FileState.whole old else FileState.absent)
            (save_checkpoint_ops (save_checkpoint_data {1, 2}
              [(5, ⟨5, "RuntimeError", "boom", "t0", 2⟩)] "t1")) k mid
            CHECKPOINT_FILE = FileState.whole old
        ∨ runCrash (fun q => if q = CHECKPOINT_FILE then FileState.whole old else FileState.absent)
            (save_checkpoint_ops (save_checkpoint_data {1, 2}
              [(5, ⟨5, "RuntimeError", "boom", "t0", 2⟩)] "t1")) k mid
            CHECKPOINT_FILE
            = FileState.whole (save_checkpoint_data {1, 2}
                [(5, ⟨5, "RuntimeError", "boom", "t0", 2⟩)] "t1")) :=
  c8_checkpoint_roundtrip {1, 2} [(5, ⟨5, "RuntimeError", "boom", "t0", 2⟩)] "t1"
    (by decide)

/-- Running the paging loop against a server that serves `l` in
`PER_PAGE`-sized chunks starting at `page` yields exactly `l` in order and
issues `l.length / PER_PAGE + 1` page requests, for any sufficient fuel. -/
lemma paginate_go_of_chunks {α : Type} :
    ∀ (fuel : Nat) (l : List α) (page : Nat) (script : Nat → List α),
      (∀ k, script (page + k) = (l.drop (k * PER_PAGE)).take PER_PAGE) →
      l.length / PER_PAGE + 1 ≤ fuel →
      paginate_go script none page fuel = (l, l.length / PER_PAGE + 1) := by
  intro fuel
  induction fuel with
  | zero =>
    intro l page script hs hf
    exact absurd hf (Nat.not_succ_le_zero _)
  | succ f ih =>
    intro l page script hs hf
    have h0 : script page = l.take PER_PAGE := by simpa using hs 0
    rw [paginate_go, h0]
    by_cases hnil : l = []
    · subst hnil
      simp
    · by_cases hshort : l.length < PER_PAGE
      · have htake : l.take PER_PAGE = l := List.take_of_length_le (le_of_lt hshort)
        have hempty : l.isEmpty = false := by
          simpa [List.isEmpty_iff] using hnil
        rw [htake]
        simp [hempty, hshort, Nat.div_eq_of_lt hshort]
      · push_neg at hshort
        have htlen : (l.take PER_PAGE).length = PER_PAGE := by
          rw [List.length_take]
          omega
        have hne : (l.take PER_PAGE).isEmpty = false := by
          have hP : (0 : Nat) < PER_PAGE := by norm_num [PER_PAGE]
          cases htk : l.take PER_PAGE with
          | nil => rw [htk] at htlen; simp at htlen; omega
          | cons a as => rfl
        have hdiv : l.length / PER_PAGE = (l.length - PER_PAGE) / PER_PAGE + 1 :=
          Nat.div_eq_sub_div (by norm_num [PER_PAGE]) hshort
        have hdroplen : (l.drop PER_PAGE).length = l.length - PER_PAGE :=
          List.length_drop _ _
        have hrec := ih (l.drop PER_PAGE) (page + 1) script ?_ ?_
        · simp only [hne, Bool.false_eq_true, if_false, htlen, lt_irrefl, hrec]
          rw [List.take_append_drop]
          rw [hdroplen, ← hdiv]
        · intro k
          rw [show page + 1 + k = page + (1 + k) by omega, hs (1 + k), List.drop_drop,
            show (1 + k) * PER_PAGE = PER_PAGE + k * PER_PAGE by ring]
        · rw [hdroplen]
          omega

set_option maxRecDepth 4000 in
/-- C4 counterexample: 100 items served in pages of `PER_PAGE = 100` are
all yielded, but across 2 page requests (the full first page forces a
second, empty request), while the claim's `⌈N/P⌉` is 1. -/
theorem c4_counterexample :
    paginate_run (List.replicate 100 (0 : Nat)) 2 = (List.replicate 100 0, 2)
    ∧ ((100 + PER_PAGE - 1) / PER_PAGE : Nat) = 1 := by decide

/-- C4 (amended): for every sequence of N items served in pages of size
`PER_PAGE`, `paginate` yields exactly the N items in their original order
and issues exactly `N / PER_PAGE + 1` page requests — that is `⌈N/P⌉`
whenever N is not a multiple of P, and one more than `⌈N/P⌉` when it is
(including N = 0), because a full (or absent) final chunk makes the loop
request one further page before stopping on a short or empty page. -/
theorem c4_pagination (items : List Nat) (fuel : Nat)
    (hfuel : items.length / PER_PAGE + 1 ≤ fuel) :
    paginate_run items fuel = (items, items.length / PER_PAGE + 1) := by
  refine paginate_go_of_chunks fuel items 1 (pagesOf items) ?_ hfuel
  intro k
  simp [pagesOf, Nat.add_sub_cancel_left]

set_option maxRecDepth 8000 in
/-- C4 witness: 150 items are yielded completely, in order, in 2 requests
(here `⌈150/100⌉ = 150/100 + 1 = 2`). -/
theorem c4_witness : paginate_run (List.range 150) 2 = (List.range 150, 2) := by
  have h := c4_pagination (List.range 150) 2 (by decide)
  simpa using h

/-- C5: evaluation of the code at the claim's failing input.  A 403
carrying `Retry-After: 2` with 100 remaining (the exact response scripted
by the repo's own test `test_secondary_rate_limit_403_with_retry_after`,
which expects a 2-second wait, a retry and the following 200) is not
treated as rate limiting by `_handle_rate_limit` (no sleep, no retry), so
`_request` raises `HTTPStatusError` for the 403 instead of retrying.  The
429 half of the claim does hold: a 429 with `Retry-After: 3` sleeps
exactly 3 seconds and retries. -/
theorem c5_403_retry_after_not_handled :
    handle_rate_limit 0 ⟨403, some 100, some 0, some 2⟩ = (false, 0)
    ∧ github_request 0
        (fun i => if i = 0 then ⟨403, some 100, some 0, some 2⟩
                  else ⟨200, some 4999, none, none⟩) 3
        = Except.error (ReqError.httpStatus 403)
    ∧ handle_rate_limit 0 ⟨429, none, none, some 3⟩ = (true, 3) := by decide

/-- Rate-limited responses are retried, but each retry consumes one unit
of the attempt budget: when every response is rate-limited, the loop ends
and `_request` raises `Max retries exceeded`. -/
lemma request_go_all_rate_limited (now : Int) (script : Nat → Resp) :
    ∀ (fuel attempt : Nat),
      (∀ i, i < fuel → (handle_rate_limit now (script (attempt + i))).1 = true) →
      request_go now script attempt fuel = Except.error ReqError.maxRetries := by
  intro fuel
  induction fuel with
  | zero => intro attempt h; rfl
  | succ f ih =>
    intro attempt h
    have h0 : (handle_rate_limit now (script attempt)).1 = true := by
      simpa using h 0 (Nat.succ_pos f)
    rw [request_go]
    simp only [h0, if_true]
    refine ih (attempt + 1) ?_
    intro i hi
    have := h (i + 1) (by omega)
    rwa [show attempt + (i + 1) = attempt + 1 + i by omega] at this

/-- Up to `fuel - 1` consecutive rate-limited responses followed by a
success are absorbed: each is waited out and retried, and the first
non-rate-limited success is returned. -/
lemma request_go_recovers (now : Int) (script : Nat → Resp) :
    ∀ (k attempt fuel : Nat),
      k < fuel →
      (∀ i, i < k → (handle_rate_limit now (script (attempt + i))).1 = true) →
      (handle_rate_limit now (script (attempt + k))).1 = false →
      (script (attempt + k)).status < 400 →
      request_go now script attempt fuel = Except.ok (script (attempt + k)) := by
  intro k
  induction k with
  | zero =>
    intro attempt fuel hk hrl hfalse hstatus
    match fuel, hk with
    | f + 1, _ =>
      rw [request_go]
      have hfalse0 : (handle_rate_limit now (script attempt)).1 = false := by
        simpa using hfalse
      have hst : (script attempt).status < 400 := by simpa using hstatus
      simp only [hfalse0, Bool.false_eq_true, if_false]
      rw [if_neg (by omega), if_neg (by omega)]
      simp
  | succ k ih =>
    intro attempt fuel hk hrl hfalse hstatus
    match fuel, hk with
    | f + 1, hk =>
      have h0 : (handle_rate_limit now (script attempt)).1 = true := by
        simpa using hrl 0 (Nat.succ_pos k)
      rw [request_go]
      simp only [h0, if_true]
      rw [show attempt + (k + 1) = attempt + 1 + k from by omega] at hfalse hstatus
      rw [show attempt + (k + 1) = attempt + 1 + k from by omega]
      refine ih (attempt + 1) f (by omega) ?_ hfalse hstatus
      intro i hi
      rw [show attempt + 1 + i = attempt + (i + 1) from by omega]
      exact hrl (i + 1) (by omega)

/-- C6 counterexample: three consecutive rate-limited responses (HTTP 429
with `Retry-After: 1`) exhaust the `max_retries = 3` attempt budget and
make `_request` raise `Max retries exceeded` — the claim that rate-limited
responses are retried indefinitely and never cause the request to raise is
false on the code. -/
theorem c6_counterexample :
    github_request 0 (fun _ => ⟨429, none, none, some 1⟩) 3
      = Except.error ReqError.maxRetries := by decide

/-- C6 (amended): every rate-limited response (403 with zero remaining, or
429) is waited out and retried rather than surfaced, but each such retry
consumes one unit of the same `max_retries = 3` attempt budget
(`continue` inside `for attempt in range(max_retries)`): at most 2
consecutive rate-limited responses can precede the success that is then
returned, while 3 consecutive rate-limited responses exhaust the budget
and make the request raise `Max retries exceeded` — retrying is bounded by
the attempt budget, not only by the external reset time. -/
theorem c6_rate_limit_retry_bounded :
    (∀ (now : Int) (script : Nat → Resp),
       (∀ i, i < 3 → (handle_rate_limit now (script i)).1 = true) →
       github_request now script 3 = Except.error ReqError.maxRetries)
    ∧ (∀ (now : Int) (script : Nat → Resp) (k : Nat),
       k < 3 →
       (∀ i, i < k → (handle_rate_limit now (script i)).1 = true) →
       (handle_rate_limit now (script k)).1 = false →
       (script k).status < 400 →
       github_request now script 3 = Except.ok (script k)) := by
  constructor
  · intro now script h
    exact request_go_all_rate_limited now script 3 0 (by simpa using h)
  · intro now script k hk hrl hfalse hstatus
    have h := request_go_recovers now script k 0 3 hk (by simpa using hrl)
      (by simpa using hfalse) (by simpa using hstatus)
    simpa [github_request] using h

/-- C6 witness: a script of three 429s raises after the budget, and a
script of two 429s followed by a 200 is absorbed and succeeds. -/
theorem c6_witness :
    github_request 0 (fun _ => ⟨429, none, none, some 2⟩) 3
      = Except.error ReqError.maxRetries
    ∧ github_request 0
        (fun i => if i < 2 then ⟨429, none, none, some 2⟩
                  else ⟨200, some 4999, none, none⟩) 3
        = Except.ok ⟨200, some 4999, none, none⟩ := by
  constructor
  · exact c6_rate_limit_retry_bounded.1 0 _ (by decide)
  · have h := c6_rate_limit_retry_bounded.2 0
      (fun i => if i < 2 then ⟨429, none, none, some 2⟩
                else ⟨200, some 4999, none, none⟩)
      2 (by omega) (by decide) (by decide) (by decide)
    simpa using h
/-- C7: Token caching rule: when the cached token read on the lock-free
fast path expires more than 5 minutes in the future, `get_token` returns
it with no exchange call; otherwise the caller acquires the refresh lock
and re-checks the same condition, exchanging only if it still fails — so
of two concurrent callers that both see an expired cache, the first
performs the single exchange and the second, re-checking under the lock
after the first's refresh, receives the refreshed token from cache without
a second exchange: exactly one exchange happens in total. -/
theorem c7_token_cache (now : Int) (s s0 : AuthState) (fresh : Nat × Int)
    (hfast : tokenValid now s = true)
    (hexp : tokenValid now s0 = false)
    (hfresh : now + 300 < fresh.2) :
    get_token now now s s fresh = TokenOutcome.cachedFast (s.token.getD 0)
    ∧ two_callers_after_expiry now s0 fresh
        = (TokenOutcome.refreshed fresh.1 fresh.2, TokenOutcome.cachedLocked fresh.1)
    ∧ (stateAfter (stateAfter s0 (two_callers_after_expiry now s0 fresh).1)
        (two_callers_after_expiry now s0 fresh).2).exchanges = s0.exchanges + 1 := by
  have ha : get_token now now s0 s0 fresh = TokenOutcome.refreshed fresh.1 fresh.2 := by
    simp [get_token, hexp]
  have hb : tokenValid now
      ({ token := some fresh.1, expires_at := some fresh.2,
         exchanges := s0.exchanges + 1 } : AuthState) = true := by
    simp [tokenValid, hfresh]
  have htwo : two_callers_after_expiry now s0 fresh
      = (TokenOutcome.refreshed fresh.1 fresh.2, TokenOutcome.cachedLocked fresh.1) := by
    simp only [two_callers_after_expiry, ha, stateAfter, get_token, hexp,
      Bool.false_eq_true, if_false, hb, if_true, Option.getD_some, Prod.mk.injEq]
  refine ⟨by simp [get_token, hfast], htwo, ?_⟩
  rw [htwo]
  simp [stateAfter]

/-- C7 witness: with a token 4 minutes (240 s) from expiry, two queued
callers trigger exactly one exchange and both receive the fresh token,
while a caller holding a token 1000 s from expiry gets it from cache. -/
theorem c7_witness :
    get_token 0 0 ⟨some 7, some 1000, 0⟩ ⟨some 7, some 1000, 0⟩ (9, 4000)
      = TokenOutcome.cachedFast ((⟨some 7, some 1000, 0⟩ : AuthState).token.getD 0)
    ∧ two_callers_after_expiry 0 ⟨some 7, some 240, 0⟩ (9, 4000)
        = (TokenOutcome.refreshed 9 4000, TokenOutcome.cachedLocked 9)
    ∧ (stateAfter (stateAfter ⟨some 7, some 240, 0⟩
          (two_callers_after_expiry 0 ⟨some 7, some 240, 0⟩ (9, 4000)).1)
        (two_callers_after_expiry 0 ⟨some 7, some 240, 0⟩ (9, 4000)).2).exchanges
        = (⟨some 7, some 240, 0⟩ : AuthState).exchanges + 1 :=
  c7_token_cache 0 ⟨some 7, some 1000, 0⟩ ⟨some 7, some 240, 0⟩ (9, 4000)
    (by decide) (by decide) (by decide)

/-- C9: Partial-failure PRs still count as processed: when processing a PR
completes with a failed sub-fetch (here the file fetch, with any other
sub-fetch outcomes), the error is captured per-kind in the `PRDetails`
error list, the PR number is appended to the pending list (from which the
flush moves it into the processed set), and neither the failed-PR map nor
the failure counter changes. -/
theorem c9_partial_failure_processed (s : ExtState) (prn : Nat) (ts : String)
    (prRow : Row) (f : FetchResults) (m : String)
    (hstop : s.stop_requested = false)
    (hfiles : f.files = Except.error m) :
    ("files: " ++ m) ∈ (extract_pr_details prRow f).errors
    ∧ (extract_pr_details prRow f).errors ≠ []
    ∧ (process_single_pr ts s prn prRow (Except.ok f)).pending = s.pending ++ [prn]
    ∧ (process_single_pr ts s prn prRow (Except.ok f)).failed = s.failed
    ∧ (process_single_pr ts s prn prRow (Except.ok f)).stats_failed = s.stats_failed := by
  have hmem : ("files: " ++ m) ∈ (extract_pr_details prRow f).errors := by
    simp [extract_pr_details, fetchErr, hfiles]
  refine ⟨hmem, ?_, ?_, ?_, ?_⟩
  · intro hnil
    rw [hnil] at hmem
    cases hmem
  · simp [process_single_pr, hstop, merge_details]
  · simp [process_single_pr, hstop, merge_details]
  · simp [process_single_pr, hstop, merge_details]

/-- C9 witness: in `stateA`, PR 7's file fetch fails with "boom" while the
other sub-fetches succeed; the PR is still appended to pending and the
failed map and counter are untouched. -/
theorem c9_witness :
    ("files: " ++ "boom") ∈ (extract_pr_details ⟨7, 0, 0⟩ fetchA).errors
    ∧ (extract_pr_details ⟨7, 0, 0⟩ fetchA).errors ≠ []
    ∧ (process_single_pr "t" stateA 7 ⟨7, 0, 0⟩ (Except.ok fetchA)).pending
        = stateA.pending ++ [7]
    ∧ (process_single_pr "t" stateA 7 ⟨7, 0, 0⟩ (Except.ok fetchA)).failed = stateA.failed
    ∧ (process_single_pr "t" stateA 7 ⟨7, 0, 0⟩ (Except.ok fetchA)).stats_failed
        = stateA.stats_failed :=
  c9_partial_failure_processed stateA 7 "t" ⟨7, 0, 0⟩ fetchA "boom" (by decide) (by decide)

/-- C3: evaluation of the code at the claim's failing input.  The source
of `GitHubClient` defines no `rate_limit_remaining` member (no instance
attribute, property or method of that name exists, and `_request` never
reads the rate-limit headers into one), so the producer's pre-push check
`self.client.rate_limit_remaining < RATE_LIMIT_PRODUCER_PAUSE` in
`DataExtractor._wait_for_rate_limit` raises `AttributeError` instead of
comparing the live counter against the low-water mark, whatever value such
a counter would have held. -/
theorem c3_rate_limit_counter_missing :
    github_client_members.contains "rate_limit_remaining" = false
    ∧ ∀ value : String → Int,
        producer_rate_check github_client_members value
          = Except.error "AttributeError: rate_limit_remaining" := by
  have h : github_client_members.contains "rate_limit_remaining" = false := by decide
  refine ⟨h, fun value => ?_⟩
  simp [producer_rate_check, h]
  decide

end LGTM
